import Mathlib

/-!
Verification of the `nbcli` command-line engine (`src/nbcli/_cli.py`).

The embedding models Python values as a mutual inductive `Value`
(dicts and modules as association lists of string-keyed fields), and
translates the engine's functions directly from the source:

* `lookup_value`   — `_lookup_value(obj, name)`  (dotted-path walk);
* `expandVariables` — `_expand_variables(ns, value)` (recursive `$`-reference
  substitution, returning `Except` where the Python code raises);
* `reassemble`     — the line-continuation block of `_parse_input`;
* `parse_input`    — `_parse_input(line, cell, ns, argparser)`, with the
  external `shlex.split` and `argparse.parse_args` stages abstracted as
  function parameters (they are library code, not part of this repository);
* `execute`        — `CommandLineInterface.execute(line, cell, ns)`;
* `format_help`    — `CommandLineParser.format_help`.

Python `None` is the value `Value.pyNone`; a raised exception is
`Except.error` carrying the exception's message string.
-/

mutual

inductive Value where
  | str : String → Value
  | int : Int → Value
  | bool : Bool → Value
  | pyNone : Value
  | dict : Fields → Value
  | list : Elems → Value
  | module : Fields → Value

inductive Fields where
  | nil : Fields
  | cons : String → Value → Fields → Fields

inductive Elems where
  | enil : Elems
  | econs : Value → Elems → Elems

end

/-- Association-list lookup on the fields of a dict or module
(Python `member in obj` followed by `obj[member]`). -/
def findField : Fields → String → Option Value
  | Fields.nil, _ => Option.none
  | Fields.cons k v rest, m => if k = m then some v else findField rest m

/-- One step of the dotted-path walk in `_lookup_value`: a segment resolves
if the object is a dict holding it as a key, or a module holding it as an
attribute; anything else fails (the `else: return None` branch). -/
def memberLookup : Value → String → Option Value
  | Value.dict fs, m => findField fs m
  | Value.module fs, m => findField fs m
  | _, _ => Option.none

/-- `_lookup_value(obj, name)` after splitting `name` on `"."`: walk the
segments, returning Python `None` (`Value.pyNone`) as soon as a segment
fails to resolve, the reached object otherwise. -/
def lookup_value (obj : Value) : List String → Value
  | [] => obj
  | m :: rest =>
    match memberLookup obj m with
    | some v => lookup_value v rest
    | Option.none => Value.pyNone

/-- Python `name.split('.')`: split on every dot, keeping empty segments
(so `"".split('.') == ['']`). -/
def pySplitAux : List Char → List Char → List String
  | [], acc => [String.mk acc.reverse]
  | c :: rest, acc =>
    if c = '.' then String.mk acc.reverse :: pySplitAux rest []
    else pySplitAux rest (c :: acc)

/-- Python `name.split('.')`. -/
def pySplit (s : String) : List String := pySplitAux s.data []

/-- The tail of `_expand_variables`'s reference branch: the looked-up value
is substituted, except that Python `None` (also produced for unresolved
references) raises `'Unable to find a valid value for "%s".' % name`. -/
def refValue (name : String) : Value → Except String Value
  | Value.pyNone => Except.error ("Unable to find a valid value for \"" ++ name ++ "\".")
  | v => Except.ok v

/-- The string branch of `_expand_variables`: Python evaluates `value[0]`,
which raises `IndexError('string index out of range')` on an empty string;
a leading `'$'` makes the rest a dotted reference, any other string is
returned unchanged. -/
def expandStr (ns : Value) (s : String) : Except String Value :=
  match s.data with
  | [] => Except.error "string index out of range"
  | c :: rest =>
    if c = '$' then refValue (String.mk rest) (lookup_value ns (pySplit (String.mk rest)))
    else Except.ok (Value.str s)

mutual

/-- `_expand_variables(ns, value)`: recurse through dicts and lists,
substitute `$`-references in strings, leave every other value unchanged. -/
def expandVariables (ns : Value) : Value → Except String Value
  | Value.dict fs =>
    match expandFields ns fs with
    | Except.ok fs2 => Except.ok (Value.dict fs2)
    | Except.error e => Except.error e
  | Value.list es =>
    match expandElems ns es with
    | Except.ok es2 => Except.ok (Value.list es2)
    | Except.error e => Except.error e
  | Value.str s => expandStr ns s
  | v => Except.ok v

/-- `_expand_variables` mapped over a dict's entries. -/
def expandFields (ns : Value) : Fields → Except String Fields
  | Fields.nil => Except.ok Fields.nil
  | Fields.cons k v rest =>
    match expandVariables ns v with
    | Except.error e => Except.error e
    | Except.ok v2 =>
      match expandFields ns rest with
      | Except.error e => Except.error e
      | Except.ok rest2 => Except.ok (Fields.cons k v2 rest2)

/-- `_expand_variables` mapped over a list's elements. -/
def expandElems (ns : Value) : Elems → Except String Elems
  | Elems.enil => Except.ok Elems.enil
  | Elems.econs v rest =>
    match expandVariables ns v with
    | Except.error e => Except.error e
    | Except.ok v2 =>
      match expandElems ns rest with
      | Except.error e => Except.error e
      | Except.ok rest2 => Except.ok (Elems.econs v2 rest2)

end

/-- Python whitespace for `str.rstrip()` with no argument. -/
def pyIsSpace (c : Char) : Bool :=
  c = ' ' || c = '\t' || c = '\n' || c = '\r' || c = '\x0b' || c = '\x0c'

/-- Strip trailing characters satisfying `p` (Python `str.rstrip(chars)`). -/
def rstripBy (p : Char → Bool) (s : String) : String :=
  String.mk (s.data.reverse.dropWhile p).reverse

/-- Python `str.rstrip()`. -/
def pyRstrip (s : String) : String := rstripBy pyIsSpace s

/-- `line[-1] == c` on a string known to be non-empty (used only where the
Python code has already established non-emptiness). -/
def lastIs (s : String) (c : Char) : Bool :=
  match s.data.getLast? with
  | some d => d = c
  | Option.none => false

/-- Line iteration of `cStringIO.StringIO(cell)`: the lines of `cell` with
their trailing newlines kept, as `for l in buffer` yields them. -/
def splitLinesAux : List Char → List Char → List (List Char)
  | [], acc =>
    match acc with
    | [] => []
    | _ => [acc.reverse]
  | c :: rest, acc =>
    if c = '\n' then (acc.reverse ++ ['\n']) :: splitLinesAux rest []
    else splitLinesAux rest (c :: acc)

/-- The lines of a cell as `cStringIO` iteration yields them. -/
def splitLinesKeep (s : String) : List String :=
  (splitLinesAux s.data []).map String.mk

/-- Concatenation of the unconsumed lines: what `buffer.read()` returns
after the loop has consumed the preceding lines. -/
def concatStrings : List String → String
  | [] => ""
  | s :: rest => s ++ concatStrings rest

/-- The `for l in buffer` loop of `_parse_input`: join continuation lines,
and on the first joined line not ending in a backslash, break with the
rest of the buffer right-stripped as the new cell.  Returns the final
`line` and `some cell'` if the loop broke, `Option.none` if it exhausted
the buffer (in which case the Python `cell` variable keeps its old value). -/
def reassembleLoop : String → List String → String × Option String
  | line, [] => (line, Option.none)
  | line, l :: rest =>
    let line2 := rstripBy (fun c => c = '\\') line ++ " " ++ rstripBy (fun c => c = '\n') l
    if lastIs line2 '\\' then reassembleLoop line2 rest
    else (line2, some (pyRstrip (concatStrings rest)))

/-- The line-continuation block at the start of `_parse_input`:
`line = line.rstrip()`, an `IndexError` on an empty result, and the
continuation loop when the line ends in a backslash. -/
def reassemble (line cell : String) : Except String (String × String) :=
  match (pyRstrip line).data.getLast? with
  | Option.none => Except.error "string index out of range"
  | some c =>
    if c = '\\' then
      match reassembleLoop (pyRstrip line) (splitLinesKeep cell) with
      | (l2, some c2) => Except.ok (l2, c2)
      | (l2, Option.none) => Except.ok (l2, cell)
    else Except.ok (pyRstrip line, cell)

/-- A content binding as stored by `set_defaults(_content=...)`: its
documentation string and its `parse(cell, ns)` method (`CommandContent`
returns the cell verbatim; `YamlCommandContent` parses and validates). -/
structure Content where
  doc : String
  parse : String → Value → Except String Value

/-- The plain-text binding `CommandContent(doc)`: `parse` passes the cell
through unchanged. -/
def CommandContent (doc : String) : Content :=
  { doc := doc, parse := fun cell _ => Except.ok (Value.str cell) }

/-- The parsed-arguments object: the optional `_content` default and the
`_handler` default (the handler receives the parsed content when one was
produced, and the namespace; it may raise). -/
structure Args where
  content : Option Content
  handler : Option Value → Value → Except String Unit

/-- `_parse_input(line, cell, ns, argparser)`.  `shlexSplit` abstracts
`shlex.split` and `parseArgs` abstracts `argparser.parse_args`; both are
external library stages whose failures raise with a message.  The second
component of the result is the Python `content` variable, `Value.pyNone`
when no binding ran. -/
def parse_input (shlexSplit : String → Except String (List String))
    (parseArgs : Value → Except String Args)
    (ns : Value) (line cell : String) : Except String (Args × Value) :=
  match reassemble line cell with
  | Except.error e => Except.error e
  | Except.ok (l, cell2) =>
    match shlexSplit l with
    | Except.error e => Except.error e
    | Except.ok toks =>
      match expandVariables ns (Value.list (toks.foldr (fun t es => Elems.econs (Value.str t) es) Elems.enil)) with
      | Except.error e => Except.error e
      | Except.ok argv =>
        match parseArgs argv with
        | Except.error e => Except.error e
        | Except.ok args =>
          match args.content with
          | some cb =>
            if cell2 = "" then Except.error "Content must be specified for this command."
            else
              match cb.parse cell2 ns with
              | Except.error e => Except.error e
              | Except.ok v => Except.ok (args, v)
          | Option.none =>
            if cell2 = "" then Except.ok (args, Value.pyNone)
            else Except.error "Content is not supported for this command."

/-- The handler call at the end of `execute`: `content is not None` selects
the three-argument form. -/
def invokeHandler (args : Args) (content ns : Value) : Except String Unit :=
  match content with
  | Value.pyNone => args.handler Option.none ns
  | c => args.handler (some c) ns

/-- What `execute` did: the text written to `sys.stderr` and whether a
handler was invoked. -/
structure ExecResult where
  stderrText : String
  handlerInvoked : Bool

/-- `CommandLineInterface.execute(line, cell, ns)`: any exception from the
parse stage is caught; the literal message `'Help'` is silently dropped,
any other is written to stderr as `'Error: ...'`; on success the handler
runs, and a fault it raises is not caught (`Except.error` escapes). -/
def execute (shlexSplit : String → Except String (List String))
    (parseArgs : Value → Except String Args)
    (ns : Value) (line cell : String) : Except String ExecResult :=
  match parse_input shlexSplit parseArgs ns line cell with
  | Except.error e =>
    if e = "Help" then Except.ok { stderrText := "", handlerInvoked := false }
    else Except.ok { stderrText := "Error: " ++ e ++ "\n", handlerInvoked := false }
  | Except.ok (args, content) =>
    match invokeHandler args content ns with
    | Except.ok _ => Except.ok { stderrText := "", handlerInvoked := true }
    | Except.error e => Except.error e

/-- `CommandLineParser.format_help`: the base argparse help text with
`'usage: '` rewritten, and the content binding's documentation appended
under a `content:` section when the parser carries a `_content` default. -/
def format_help (baseHelp : String) (content : Option Content) : String :=
  let h := baseHelp.replace "usage: " "usage:\n%"
  match content with
  | some c => h ++ "\ncontent: \n" ++ c.doc
  | Option.none => h

/-- The grammar violations named by the spec, with the messages Python 2.7's
`argparse` passes to `parser.error` (which `CommandLineParser.error` turns
into an exception): an unknown (sub)command, an unrecognized flag, a missing
required flag, and a failed typed coercion. -/
inductive GrammarViolation where
  | unknownCommand : String → String → GrammarViolation
  | unknownFlag : String → GrammarViolation
  | missingRequiredFlag : String → GrammarViolation
  | typeCoercion : String → String → String → GrammarViolation

/-- The human-readable message of each grammar violation, following the
Python 2.7 `argparse` formats. -/
def grammarMessage : GrammarViolation → String
  | GrammarViolation.unknownCommand c cs =>
    "invalid choice: '" ++ (c ++ ("' (choose from " ++ (cs ++ ")")))
  | GrammarViolation.unknownFlag x => "unrecognized arguments: " ++ x
  | GrammarViolation.missingRequiredFlag f => "argument " ++ (f ++ " is required")
  | GrammarViolation.typeCoercion a t v =>
    "argument " ++ (a ++ (": invalid " ++ (t ++ (" value: '" ++ (v ++ "'")))))

/-- Walk a namespace segment-by-segment along a dotted path.  Modelled from
the spec's resolvability notion: each segment must resolve as a mapping key
or as an attribute of a module-like object; the result is the reached value. -/
def specWalk : Value → List String → Option Value
  | obj, [] => some obj
  | obj, m :: rest =>
    match memberLookup obj m with
    | some v => specWalk v rest
    | Option.none => Option.none

mutual

/-- Values containing no `$`-prefixed strings and no empty strings: the
domain on which expansion is the identity. -/
def cleanVal : Value → Bool
  | Value.str s =>
    match s.data with
    | [] => false
    | c :: _ => decide (c ≠ '$')
  | Value.dict fs => cleanFields fs
  | Value.list es => cleanElems es
  | _ => true

/-- `cleanVal` over a dict's entries. -/
def cleanFields : Fields → Bool
  | Fields.nil => true
  | Fields.cons _ v rest => cleanVal v && cleanFields rest

/-- `cleanVal` over a list's elements. -/
def cleanElems : Elems → Bool
  | Elems.enil => true
  | Elems.econs v rest => cleanVal v && cleanElems rest

end

/-! ## Helper lemmas -/

theorem length_ne_help {s : String} (h : 4 < s.length) : s ≠ "Help" :=
  fun e => absurd (e ▸ h) (by decide)

theorem grammarMessage_ne_help (g : GrammarViolation) : grammarMessage g ≠ "Help" := by
  cases g with
  | unknownCommand c cs =>
    apply length_ne_help
    simp only [grammarMessage, String.length_append]
    have h1 : ("invalid choice: '" : String).length = 17 := rfl
    omega
  | unknownFlag x =>
    apply length_ne_help
    simp only [grammarMessage, String.length_append]
    have h1 : ("unrecognized arguments: " : String).length = 24 := rfl
    omega
  | missingRequiredFlag f =>
    apply length_ne_help
    simp only [grammarMessage, String.length_append]
    have h1 : ("argument " : String).length = 9 := rfl
    omega
  | typeCoercion a t v =>
    apply length_ne_help
    simp only [grammarMessage, String.length_append]
    have h1 : ("argument " : String).length = 9 := rfl
    omega

/-! ## Claim theorems -/

/-- C1: every grammar violation raised during argument parsing (its message
following the argparse formats) is caught by `execute`: the process is not
terminated (`execute` returns a normal `Except.ok` result), no handler is
invoked, and the single message is written to the user-visible error
channel prefixed with `Error: `. -/
theorem c1_grammar_violation_contained
    (shlexSplit : String → Except String (List String))
    (parseArgs : Value → Except String Args)
    (ns : Value) (line cell : String) (g : GrammarViolation)
    (h : parse_input shlexSplit parseArgs ns line cell = Except.error (grammarMessage g)) :
    execute shlexSplit parseArgs ns line cell =
      Except.ok { stderrText := "Error: " ++ grammarMessage g ++ "\n", handlerInvoked := false } := by
  simp only [execute, h]
  rw [if_neg (grammarMessage_ne_help g)]

/-- Witness for C1: a missing required flag on a concrete execution. -/
theorem c1_witness :
    execute (fun s => Except.ok [s])
      (fun _ => Except.error (grammarMessage (GrammarViolation.missingRequiredFlag "--name")))
      (Value.dict Fields.nil) "foo delete" "" =
      Except.ok { stderrText := "Error: " ++ grammarMessage (GrammarViolation.missingRequiredFlag "--name") ++ "\n",
                  handlerInvoked := false } :=
  c1_grammar_violation_contained _ _ _ _ _ _ rfl

/-- C9: whenever the parse stage fails with the literal message `Help` —
whatever the actual cause — `execute` treats it as a help outcome: nothing
is written to the error channel, no handler is invoked, and `execute`
returns normally. -/
theorem c9_literal_help_message
    (shlexSplit : String → Except String (List String))
    (parseArgs : Value → Except String Args)
    (ns : Value) (line cell : String)
    (h : parse_input shlexSplit parseArgs ns line cell = Except.error "Help") :
    execute shlexSplit parseArgs ns line cell =
      Except.ok { stderrText := "", handlerInvoked := false } := by
  simp [execute, h]

/-- Witness for C9: a failure whose message happens to be `Help` coming from
the tokenization stage, not from an actual help request, is still silently
treated as help. -/
theorem c9_witness :
    execute (fun _ => Except.error "Help")
      (fun _ => Except.ok { content := Option.none, handler := fun _ _ => Except.ok () })
      (Value.dict Fields.nil) "x" "" =
      Except.ok { stderrText := "", handlerInvoked := false } :=
  c9_literal_help_message _ _ _ _ _ rfl

/-- C8: when reassembly, argument parsing and content binding all succeed
(the parse stage returns a parsed-arguments object and content), a fault
raised by the invoked handler propagates out of `execute` uncaught. -/
theorem c8_handler_fault_uncaught
    (shlexSplit : String → Except String (List String))
    (parseArgs : Value → Except String Args)
    (ns : Value) (line cell : String) (args : Args) (content : Value) (e : String)
    (h : parse_input shlexSplit parseArgs ns line cell = Except.ok (args, content))
    (hf : invokeHandler args content ns = Except.error e) :
    execute shlexSplit parseArgs ns line cell = Except.error e := by
  simp only [execute, h, hf]

/-- Witness for C8: a handler raising `boom` after a successful parse makes
`execute` itself fail with `boom`. -/
theorem c8_witness :
    execute (fun s => Except.ok [s])
      (fun _ => Except.ok { content := Option.none, handler := fun _ _ => Except.error "boom" })
      (Value.dict Fields.nil) "hello" "" = Except.error "boom" :=
  c8_handler_fault_uncaught _ _ _ _ _ _ _ _ rfl rfl

/-- C7: on a help outcome `execute` returns without invoking a handler and
without surfacing an error message, and the rendered help text is the
standard usage/flags description (with the `usage: ` header rewritten)
followed, when the resolved command declares a content binding, by the
binding's documentation string under a `content` section. -/
theorem c7_help_rendered
    (shlexSplit : String → Except String (List String))
    (parseArgs : Value → Except String Args)
    (ns : Value) (line cell : String) (base : String) (cb : Content)
    (h : parse_input shlexSplit parseArgs ns line cell = Except.error "Help") :
    execute shlexSplit parseArgs ns line cell =
      Except.ok { stderrText := "", handlerInvoked := false } ∧
    format_help base (some cb) =
      base.replace "usage: " "usage:\n%" ++ "\ncontent: \n" ++ cb.doc ∧
    format_help base Option.none = base.replace "usage: " "usage:\n%" := by
  refine ⟨?_, rfl, rfl⟩
  simp [execute, h]

/-- Witness for C7 at a concrete help request and binding. -/
theorem c7_witness :
    execute (fun s => Except.ok [s]) (fun _ => Except.error "Help")
      (Value.dict Fields.nil) "cmd -h" "" =
      Except.ok { stderrText := "", handlerInvoked := false } ∧
    format_help "usage: cmd\n" (some (CommandContent "the content doc")) =
      ("usage: cmd\n" : String).replace "usage: " "usage:\n%" ++ "\ncontent: \n" ++
        (CommandContent "the content doc").doc ∧
    format_help "usage: cmd\n" Option.none =
      ("usage: cmd\n" : String).replace "usage: " "usage:\n%" :=
  c7_help_rendered _ _ _ _ _ _ _ rfl

/-- C2: after a successful reassembly, tokenization, expansion and argument
parse, a resolved command with a content binding and empty content text
fails with the `content required` message, and a resolved command without a
binding and non-empty content text fails with the `content not supported`
message; in both cases the message is surfaced on the error channel and no
handler is invoked. -/
theorem c2_content_arity
    (shlexSplit : String → Except String (List String))
    (parseArgs : Value → Except String Args)
    (ns : Value) (line cell l cl : String) (toks : List String) (argv : Value) (args : Args)
    (h1 : reassemble line cell = Except.ok (l, cl))
    (h2 : shlexSplit l = Except.ok toks)
    (h3 : expandVariables ns (Value.list (toks.foldr (fun t es => Elems.econs (Value.str t) es) Elems.enil)) = Except.ok argv)
    (h4 : parseArgs argv = Except.ok args) :
    (args.content.isSome = true → cl = "" →
      execute shlexSplit parseArgs ns line cell =
        Except.ok { stderrText := "Error: Content must be specified for this command.\n",
                    handlerInvoked := false }) ∧
    (args.content = Option.none → cl ≠ "" →
      execute shlexSplit parseArgs ns line cell =
        Except.ok { stderrText := "Error: Content is not supported for this command.\n",
                    handlerInvoked := false }) := by
  constructor
  · intro hc hcl
    obtain ⟨cb, hcb⟩ := Option.isSome_iff_exists.mp hc
    subst hcl
    have hne : ("Content must be specified for this command." : String) ≠ "Help" := by decide
    simp [execute, parse_input, h1, h2, h3, h4, hcb, hne]
  · intro hc hcl
    have hne : ("Content is not supported for this command." : String) ≠ "Help" := by decide
    simp [execute, parse_input, h1, h2, h3, h4, hc, hcl, hne]

/-- Witness for C2: a command with a binding and an empty cell, and a
command without a binding and a non-empty cell. -/
theorem c2_witness :
    execute (fun s => Except.ok [s])
      (fun _ => Except.ok { content := some (CommandContent "d"), handler := fun _ _ => Except.ok () })
      (Value.dict Fields.nil) "x" "" =
      Except.ok { stderrText := "Error: Content must be specified for this command.\n",
                  handlerInvoked := false } ∧
    execute (fun s => Except.ok [s])
      (fun _ => Except.ok { content := Option.none, handler := fun _ _ => Except.ok () })
      (Value.dict Fields.nil) "x" "y" =
      Except.ok { stderrText := "Error: Content is not supported for this command.\n",
                  handlerInvoked := false } :=
  ⟨(c2_content_arity (fun s => Except.ok [s])
      (fun _ => Except.ok { content := some (CommandContent "d"), handler := fun _ _ => Except.ok () })
      (Value.dict Fields.nil) "x" "" "x" "" ["x"] (Value.list (Elems.econs (Value.str "x") Elems.enil))
      { content := some (CommandContent "d"), handler := fun _ _ => Except.ok () }
      rfl rfl rfl rfl).1 rfl rfl,
   (c2_content_arity (fun s => Except.ok [s])
      (fun _ => Except.ok { content := Option.none, handler := fun _ _ => Except.ok () })
      (Value.dict Fields.nil) "x" "y" "x" "y" ["x"] (Value.list (Elems.econs (Value.str "x") Elems.enil))
      { content := Option.none, handler := fun _ _ => Except.ok () }
      rfl rfl rfl rfl).2 rfl (by decide)⟩

theorem lookup_of_specWalk_some {segs : List String} :
    ∀ {obj v : Value}, specWalk obj segs = some v → lookup_value obj segs = v := by
  induction segs with
  | nil =>
    intro obj v h
    simp only [specWalk, Option.some.injEq] at h
    simp [lookup_value, h]
  | cons m rest ih =>
    intro obj v h
    simp only [specWalk] at h
    cases hm : memberLookup obj m with
    | none => rw [hm] at h; exact absurd h (by simp)
    | some w =>
      rw [hm] at h
      simp only [lookup_value, hm]
      exact ih h

theorem lookup_of_specWalk_none {segs : List String} :
    ∀ {obj : Value}, specWalk obj segs = Option.none → lookup_value obj segs = Value.pyNone := by
  induction segs with
  | nil => intro obj h; exact absurd h (by simp [specWalk])
  | cons m rest ih =>
    intro obj h
    simp only [specWalk] at h
    cases hm : memberLookup obj m with
    | none => simp [lookup_value, hm]
    | some w =>
      rw [hm] at h
      simp only [lookup_value, hm]
      exact ih h

theorem dollar_data (P : String) : ("$" ++ P).data = '$' :: P.data := by
  rw [String.data_append]; rfl

theorem expandStr_dollar (ns : Value) (P : String) :
    expandStr ns ("$" ++ P) = refValue P (lookup_value ns (pySplit P)) := by
  unfold expandStr
  rw [dollar_data]
  rfl

theorem refValue_ok_of_ne {name : String} {v : Value} (h : v ≠ Value.pyNone) :
    refValue name v = Except.ok v := by
  cases v with
  | pyNone => exact absurd rfl h
  | str s => rfl
  | int n => rfl
  | bool b => rfl
  | dict fs => rfl
  | list es => rfl
  | module fs => rfl

theorem refValue_ne_pyNone {name : String} {v w : Value}
    (h : refValue name v = Except.ok w) : w ≠ Value.pyNone := by
  cases v with
  | pyNone => exact absurd h (by simp [refValue])
  | str s => simp only [refValue, Except.ok.injEq] at h; rw [← h]; intro hh; exact nomatch hh
  | int n => simp only [refValue, Except.ok.injEq] at h; rw [← h]; intro hh; exact nomatch hh
  | bool b => simp only [refValue, Except.ok.injEq] at h; rw [← h]; intro hh; exact nomatch hh
  | dict fs => simp only [refValue, Except.ok.injEq] at h; rw [← h]; intro hh; exact nomatch hh
  | list es => simp only [refValue, Except.ok.injEq] at h; rw [← h]; intro hh; exact nomatch hh
  | module fs => simp only [refValue, Except.ok.injEq] at h; rw [← h]; intro hh; exact nomatch hh

/-- Counterexample to C3 as stated: in the namespace `{x: None}` the dotted
path `x` is resolvable (its one segment is a mapping key, the walk yields
the value `None`), yet expansion of `$x` raises the variable-not-found
error instead of returning the walked value. -/
theorem c3_counterexample :
    specWalk (Value.dict (Fields.cons "x" Value.pyNone Fields.nil)) (pySplit "x") =
      some Value.pyNone ∧
    expandVariables (Value.dict (Fields.cons "x" Value.pyNone Fields.nil))
        (Value.str ("$" ++ "x")) =
      Except.error "Unable to find a valid value for \"x\"." ∧
    (Except.error "Unable to find a valid value for \"x\"." : Except String Value) ≠
      Except.ok Value.pyNone :=
  ⟨rfl, rfl, by simp⟩

/-- C3 (amended): for every namespace `N` and dotted path `P` resolvable in
`N`, `expand(N, "$"+P)` returns exactly the value obtained by walking `N`
segment-by-segment along `P`, whatever the type of that value — provided
that value is not `None`; a walk ending at `None` instead raises the
variable-not-found error. -/
theorem c3_amended_resolvable (ns : Value) (P : String) (v : Value)
    (hw : specWalk ns (pySplit P) = some v) (hv : v ≠ Value.pyNone) :
    expandVariables ns (Value.str ("$" ++ P)) = Except.ok v := by
  have h1 : lookup_value ns (pySplit P) = v := lookup_of_specWalk_some hw
  simp only [expandVariables]
  rw [expandStr_dollar, h1]
  exact refValue_ok_of_ne hv

/-- Witness for C3 (amended): the two-segment path `a.b` resolves to a
string value and expansion substitutes it. -/
theorem c3_witness :
    expandVariables
      (Value.dict (Fields.cons "a" (Value.dict (Fields.cons "b" (Value.str "hi") Fields.nil)) Fields.nil))
      (Value.str ("$" ++ "a.b")) = Except.ok (Value.str "hi") :=
  c3_amended_resolvable
    (Value.dict (Fields.cons "a" (Value.dict (Fields.cons "b" (Value.str "hi") Fields.nil)) Fields.nil))
    "a.b" (Value.str "hi") rfl (by simp)

/-- C5: for every dotted path `P` not resolvable in the namespace, expansion
of `"$"+P` fails with the variable-resolution error naming `P`, and when
that reference is among the command-line tokens the failure is reported on
the error channel and aborts the execution without invoking a handler. -/
theorem c5_unresolvable_reference
    (shlexSplit : String → Except String (List String))
    (parseArgs : Value → Except String Args)
    (ns : Value) (line cell l cl P : String)
    (hw : specWalk ns (pySplit P) = Option.none)
    (h1 : reassemble line cell = Except.ok (l, cl))
    (h2 : shlexSplit l = Except.ok ["$" ++ P]) :
    expandVariables ns (Value.str ("$" ++ P)) =
      Except.error ("Unable to find a valid value for \"" ++ P ++ "\".") ∧
    execute shlexSplit parseArgs ns line cell =
      Except.ok { stderrText := "Error: " ++ ("Unable to find a valid value for \"" ++ P ++ "\".") ++ "\n",
                  handlerInvoked := false } := by
  have hl : lookup_value ns (pySplit P) = Value.pyNone := lookup_of_specWalk_none hw
  have he : expandVariables ns (Value.str ("$" ++ P)) =
      Except.error ("Unable to find a valid value for \"" ++ P ++ "\".") := by
    simp only [expandVariables]
    rw [expandStr_dollar, hl]
    rfl
  refine ⟨he, ?_⟩
  have hne : ("Unable to find a valid value for \"" ++ P ++ "\".") ≠ "Help" := by
    apply length_ne_help
    rw [String.length_append, String.length_append]
    have hx : 4 < ("Unable to find a valid value for \"" : String).length := by decide
    omega
  have hel : expandElems ns (Elems.econs (Value.str ("$" ++ P)) Elems.enil) =
      Except.error ("Unable to find a valid value for \"" ++ P ++ "\".") := by
    simp only [expandElems, he]
  have hlist : expandVariables ns (Value.list (Elems.econs (Value.str ("$" ++ P)) Elems.enil)) =
      Except.error ("Unable to find a valid value for \"" ++ P ++ "\".") := by
    simp only [expandVariables, hel]
  simp [execute, parse_input, h1, h2, hlist, hne]

/-- Witness for C5: the unresolvable reference `$zzz` in an empty namespace. -/
theorem c5_witness :
    expandVariables (Value.dict Fields.nil) (Value.str ("$" ++ "zzz")) =
      Except.error ("Unable to find a valid value for \"" ++ "zzz" ++ "\".") ∧
    execute (fun s => Except.ok [s])
      (fun _ => Except.ok { content := Option.none, handler := fun _ _ => Except.ok () })
      (Value.dict Fields.nil) "$zzz" "" =
      Except.ok { stderrText := "Error: " ++ ("Unable to find a valid value for \"" ++ "zzz" ++ "\".") ++ "\n",
                  handlerInvoked := false } :=
  c5_unresolvable_reference (fun s => Except.ok [s])
    (fun _ => Except.ok { content := Option.none, handler := fun _ _ => Except.ok () })
    (Value.dict Fields.nil) "$zzz" "" "$zzz" "" "zzz" rfl rfl rfl

/-- C10: a dotted path whose walk succeeds but yields `None` makes the
reference fail with the variable-not-found error rather than substituting
`None`; and in general a successfully expanded reference can never produce
the value `None`. -/
theorem c10_none_never_substituted (ns : Value) (P : String)
    (hw : specWalk ns (pySplit P) = some Value.pyNone) :
    expandVariables ns (Value.str ("$" ++ P)) =
      Except.error ("Unable to find a valid value for \"" ++ P ++ "\".") ∧
    ∀ (ns2 : Value) (P2 : String) (w : Value),
      expandVariables ns2 (Value.str ("$" ++ P2)) = Except.ok w → w ≠ Value.pyNone := by
  constructor
  · have hl : lookup_value ns (pySplit P) = Value.pyNone := lookup_of_specWalk_some hw
    simp only [expandVariables]
    rw [expandStr_dollar, hl]
    rfl
  · intro ns2 P2 w h
    simp only [expandVariables] at h
    rw [expandStr_dollar] at h
    exact refValue_ne_pyNone h

/-- Witness for C10: the namespace `{x: None}` and path `x`. -/
theorem c10_witness :
    expandVariables (Value.dict (Fields.cons "x" Value.pyNone Fields.nil))
        (Value.str ("$" ++ "x")) =
      Except.error ("Unable to find a valid value for \"" ++ "x" ++ "\".") ∧
    ∀ (ns2 : Value) (P2 : String) (w : Value),
      expandVariables ns2 (Value.str ("$" ++ P2)) = Except.ok w → w ≠ Value.pyNone :=
  c10_none_never_substituted (Value.dict (Fields.cons "x" Value.pyNone Fields.nil)) "x" rfl

theorem expandStr_clean {s : String} (h : cleanVal (Value.str s) = true) (ns : Value) :
    expandStr ns s = Except.ok (Value.str s) := by
  unfold cleanVal at h
  unfold expandStr
  cases hs : s.data with
  | nil => rw [hs] at h; exact absurd h (by simp)
  | cons c rest =>
    rw [hs] at h
    simp only [decide_eq_true_eq] at h
    simp only [if_neg h]

mutual

theorem expandCleanVal (ns : Value) : (v : Value) → cleanVal v = true → expandVariables ns v = Except.ok v
  | Value.str s, h => expandStr_clean h ns
  | Value.int _, _ => rfl
  | Value.bool _, _ => rfl
  | Value.pyNone, _ => rfl
  | Value.module _, _ => rfl
  | Value.dict fs, h => by
    have hf := expandCleanFields ns fs (by simpa [cleanVal] using h)
    simp [expandVariables, hf]
  | Value.list es, h => by
    have he := expandCleanElems ns es (by simpa [cleanVal] using h)
    simp [expandVariables, he]

theorem expandCleanFields (ns : Value) : (fs : Fields) → cleanFields fs = true → expandFields ns fs = Except.ok fs
  | Fields.nil, _ => rfl
  | Fields.cons k v rest, h => by
    have h2 := (Bool.and_eq_true _ _).mp (by simpa [cleanFields] using h)
    have e1 := expandCleanVal ns v h2.1
    have e2 := expandCleanFields ns rest h2.2
    simp [expandFields, e1, e2]

theorem expandCleanElems (ns : Value) : (es : Elems) → cleanElems es = true → expandElems ns es = Except.ok es
  | Elems.enil, _ => rfl
  | Elems.econs v rest, h => by
    have h2 := (Bool.and_eq_true _ _).mp (by simpa [cleanElems] using h)
    have e1 := expandCleanVal ns v h2.1
    have e2 := expandCleanElems ns rest h2.2
    simp [expandElems, e1, e2]

end

/-- Counterexample to C4 as stated: the empty string contains no string
beginning with the `$` sigil, yet expansion does not return it — Python
evaluates `value[0]`, which raises `IndexError` on an empty string. -/
theorem c4_counterexample :
    expandVariables (Value.dict Fields.nil) (Value.str "") =
      Except.error "string index out of range" ∧
    (Except.error "string index out of range" : Except String Value) ≠
      Except.ok (Value.str "") :=
  ⟨rfl, by simp⟩

/-- C4 (amended): for every namespace and every value (scalar, string,
mapping, or sequence, nested to any depth) containing no string beginning
with the `$` sigil and no empty string, expansion is the identity; an empty
string instead raises `IndexError('string index out of range')`. -/
theorem c4_amended_identity (ns v : Value) (h : cleanVal v = true) :
    expandVariables ns v = Except.ok v :=
  expandCleanVal ns v h

/-- Witness for C4 (amended): a nested mapping/sequence value without
references expands to itself. -/
theorem c4_witness :
    expandVariables (Value.dict Fields.nil)
      (Value.dict (Fields.cons "a"
        (Value.list (Elems.econs (Value.str "b") (Elems.econs (Value.int 3) Elems.enil)))
        Fields.nil)) =
    Except.ok
      (Value.dict (Fields.cons "a"
        (Value.list (Elems.econs (Value.str "b") (Elems.econs (Value.int 3) Elems.enil)))
        Fields.nil)) :=
  c4_amended_identity _ _ rfl

/-- Counterexample to C6 as stated: the first line `cmd \` (trimmed form
ending with the continuation marker) and the one-line cell `a \` whose
every line still ends with the marker: the loop exhausts the cell while
continuation is still awaited and the Python `cell` variable keeps its
original value, so the remaining content is `a \`, not empty. -/
theorem c6_counterexample :
    reassemble "cmd \\" "a \\" = Except.ok ("cmd  a \\", "a \\") ∧
    ("a \\" : String) ≠ "" :=
  ⟨rfl, by decide⟩

/-- C6 (amended): for every first line whose trimmed form ends with the
continuation marker and every cell body, reassembly never raises; a first
line that is only the marker together with an empty cell yields empty
remaining content; but when the cell ends while continuation is still
awaited (the loop consumes every line), the remaining content is the
original cell body unchanged — which may be non-empty. -/
theorem c6_amended_reassembly (line cell : String)
    (h : lastIs (pyRstrip line) '\\' = true) :
    (∃ p, reassemble line cell = Except.ok p) ∧
    (∀ l2, reassembleLoop (pyRstrip line) (splitLinesKeep cell) = (l2, Option.none) →
      reassemble line cell = Except.ok (l2, cell)) ∧
    reassemble "\\" "" = Except.ok ("\\", "") := by
  have hg : (pyRstrip line).data.getLast? = some '\\' := by
    unfold lastIs at h
    cases hq : (pyRstrip line).data.getLast? with
    | none => rw [hq] at h; exact absurd h (by simp)
    | some d =>
      rw [hq] at h
      simp only [decide_eq_true_eq] at h
      rw [h]
  refine ⟨?_, ?_, rfl⟩
  · unfold reassemble
    rw [hg]
    simp only [if_pos rfl]
    cases hr : reassembleLoop (pyRstrip line) (splitLinesKeep cell) with
    | mk l2 oc =>
      cases oc with
      | none => exact ⟨(l2, cell), rfl⟩
      | some c2 => exact ⟨(l2, c2), rfl⟩
  · intro l2 hr
    unfold reassemble
    rw [hg]
    simp only [if_pos rfl]
    rw [hr]
    rfl

/-- Witness for C6 (amended): the first line that is only the marker with
an empty cell. -/
theorem c6_witness :
    (∃ p, reassemble "\\" "" = Except.ok p) ∧
    (∀ l2, reassembleLoop (pyRstrip "\\") (splitLinesKeep "") = (l2, Option.none) →
      reassemble "\\" "" = Except.ok (l2, "")) ∧
    reassemble "\\" "" = Except.ok ("\\", "") :=
  c6_amended_reassembly "\\" "" rfl
